import Mathlib

/-!
Verification of the covasim intervention subsystem (`covasim/interventions.py`):
the `Intervention` contract and its three concrete policies `ChangeBeta`,
`TestNum` and `TestProp`.  Python floats are modelled as rationals, the
population as a list of persons, and the external random primitives
(`cv.bt`, `cv.choose_people_weighted`, `Person.test`) as explicit oracles
threaded through the computation, following the spec's description of a
single explicit pseudorandom source.
-/

/-- A person of the simulated population.  Only the attributes consulted by the
interventions are modelled: `symptomatic`, `known_contact`, `diagnosed` and the
contact indices used for tracing. -/
structure Person where
  symptomatic : Bool
  known_contact : Bool
  diagnosed : Bool
  contact_inds : List Nat
deriving DecidableEq, Inhabited

/-- Modelled from the spec: `Person.test(day, sensitivity)` lives outside this
repository; per the spec it "may transition `diagnosed` to true".  The outcome
of the probabilistic test (whether this call turns the diagnosis positive) is
supplied as the boolean `pos`; a positive diagnosis is never revoked. -/
def Person.test (p : Person) (pos : Bool) : Person :=
  { p with diagnosed := p.diagnosed || pos }

/-- Simulation state as seen by the interventions: the `beta` parameter, the
population, and the results mapping merged into at finalization. -/
structure SimState where
  beta : ℚ
  people : List Person
  results : List (String × List Nat)
deriving DecidableEq

/-- A scalar-or-sequence argument, as accepted by `ChangeBeta.__init__`. -/
inductive NumOrArr (α : Type) where
  | scalar : α → NumOrArr α
  | arr : List α → NumOrArr α

/-- Model of `sc.promotetoarray`: wrap a scalar into a one-element array, keep an array. -/
def promotetoarray {α : Type} : NumOrArr α → List α
  | .scalar x => [x]
  | .arr xs => xs

/-- Model of `sc.findinds(days, t)`: the indices `i` with `days[i] == t`. -/
def findinds (days : List Int) (t : Int) : List Nat :=
  (List.range days.length).filter (fun i => days.getD i 0 == t)

/-- The `ChangeBeta` intervention state: the schedule (`days`, `changes`) and
the lazily captured baseline `orig_beta` (None until the first `apply`). -/
structure ChangeBeta where
  days : List Int
  changes : List ℚ
  orig_beta : Option ℚ
deriving DecidableEq

/-- The error message raised by `ChangeBeta.__init__` on mismatched lengths;
it carries both lengths. -/
def lenMismatchMsg (ndays nchanges : Nat) : String :=
  "Number of days supplied (" ++ toString ndays ++
    ") does not match number of changes in beta (" ++ toString nchanges ++ ")"

/-- Constructor `ChangeBeta.__init__`: promote both arguments to arrays, fail when the
lengths differ, otherwise build the instance with `orig_beta = None`. -/
def ChangeBeta.create (days : NumOrArr Int) (changes : NumOrArr ℚ) :
    Except String ChangeBeta :=
  let ds := promotetoarray days
  let cs := promotetoarray changes
  if ds.length ≠ cs.length then
    .error (lenMismatchMsg ds.length cs.length)
  else
    .ok { days := ds, changes := cs, orig_beta := none }

/-- Method `ChangeBeta.apply(sim, t)`: capture `orig_beta` on the first call, then, if
any schedule index matches `t`, recompute beta from the captured baseline by
multiplying the matched changes; otherwise leave beta untouched.  Takes and
returns the simulation's beta explicitly. -/
def ChangeBeta.apply (cb : ChangeBeta) (beta : ℚ) (t : Int) : ChangeBeta × ℚ :=
  let cb := if cb.orig_beta.isNone then { cb with orig_beta := some beta } else cb
  let inds := findinds cb.days t
  if inds ≠ [] then
    (cb, inds.foldl (fun b i => b * cb.changes.getD i 0) (cb.orig_beta.getD 0))
  else
    (cb, beta)

/-- Run `ChangeBeta.apply` over a list of timesteps. -/
def ChangeBeta.runSteps (cb : ChangeBeta) (beta : ℚ) (ts : List Int) :
    ChangeBeta × ℚ :=
  ts.foldl (fun s t => ChangeBeta.apply s.1 s.2 t) (cb, beta)

/-- The product `Π changes[i]` over the indices `i` with `days[i] == t`. -/
def matchedProduct (days : List Int) (changes : List ℚ) (t : Int) : ℚ :=
  ((findinds days t).map (fun i => changes.getD i 0)).prod

/-- The `TestNum` intervention state.  A daily budget entry is `some n` for a
finite test count `n` and `none` for a non-finite entry (mirroring the
`pl.isfinite` guard); the two result series (`n_diagnoses`, `cum_diagnoses`)
are fixed-length sequences of counts. -/
structure TestNum where
  daily_tests : List (Option Nat)
  sympt_test : ℚ
  trace_test : ℚ
  sensitivity : ℚ
  n_diagnoses : List Nat
  cum_diagnoses : List Nat
deriving DecidableEq

/-- Constructor `TestNum.__init__`: store the configuration and create the two result
series of length `npts`, initialized to zero. -/
def TestNum.create (npts : Nat) (daily_tests : List (Option Nat))
    (sympt_test trace_test sensitivity : ℚ) : TestNum :=
  { daily_tests := daily_tests, sympt_test := sympt_test, trace_test := trace_test,
    sensitivity := sensitivity, n_diagnoses := List.replicate npts 0,
    cum_diagnoses := List.replicate npts 0 }

/-- The per-person testing weight built by `TestNum.apply`: start from `1.0`,
multiply by `sympt_test` if symptomatic, independently by `trace_test` if a
known contact, and force to `0.0` if already diagnosed. -/
def TestNum.testProb (tn : TestNum) (p : Person) : ℚ :=
  let w : ℚ := 1
  let w := if p.symptomatic then w * tn.sympt_test else w
  let w := if p.known_contact then w * tn.trace_test else w
  if p.diagnosed then 0 else w

/-- The weight vector over the whole population. -/
def TestNum.testProbs (tn : TestNum) (sim : SimState) : List ℚ :=
  sim.people.map tn.testProb

/-- The unguarded normalization `test_probs /= test_probs.sum()`.  In the
rational model `w / 0 = 0`; the all-zero degenerate case is analysed through
the value of the divisor `ws.sum` (see `testNum_normalization`). -/
def normalizeProbs (ws : List ℚ) : List ℚ :=
  ws.map (fun w => w / ws.sum)

/-- Modelled from the spec: `cv.choose_people_weighted` is not part of this
repository's sources.  Per the spec it draws `n` distinct person-indices via
weighted sampling without replacement from the given distribution, so only
indices with positive probability can ever be drawn.  The random stream is
abstracted as a draw priority `order` (a permutation of all person indices):
the sample is the first `n` indices of `order` carrying positive probability. -/
def choose_people_weighted (order : List Nat) (probs : List ℚ) (n : Nat) :
    List Nat :=
  (order.filter (fun i => decide (0 < probs.getD i 0))).take n

/-- The number of entries of a weight vector that are positive. -/
def numPositive (ws : List ℚ) : Nat :=
  (ws.filter (fun w => decide (0 < w))).length

/-- Testing one selected person in `TestNum.apply`: `person.test(t,
sensitivity)` (its probabilistic outcome supplied by the oracle `testPos`),
then increment the day's diagnosis count if the person is now diagnosed.
The state is the population paired with the `n_diagnoses` series. -/
def testNumStep (testPos : Nat → Bool) (t : Nat)
    (st : List Person × List Nat) (i : Nat) : List Person × List Nat :=
  let p := (st.1.getD i default).test (testPos i)
  let people := st.1.set i p
  if p.diagnosed then (people, st.2.set t (st.2.getD t 0 + 1)) else (people, st.2)

/-- Method `TestNum.apply(sim, t)`: no-op when the schedule is exhausted or the day's
budget is non-finite or zero; otherwise build the weight vector, normalize it,
draw the day's tests and run them.  Returns the updated intervention and
simulation together with the list of indices actually tested. -/
def TestNum.apply (tn : TestNum) (sim : SimState) (t : Nat) (order : List Nat)
    (testPos : Nat → Bool) : TestNum × SimState × List Nat :=
  if t < tn.daily_tests.length then
    match tn.daily_tests.getD t none with
    | none => (tn, sim, [])
    | some n_tests =>
      if n_tests = 0 then (tn, sim, [])
      else
        let test_probs := normalizeProbs (tn.testProbs sim)
        let test_inds := choose_people_weighted order test_probs n_tests
        let st := test_inds.foldl (testNumStep testPos t) (sim.people, tn.n_diagnoses)
        ({ tn with n_diagnoses := st.2 }, { sim with people := st.1 }, test_inds)
  else (tn, sim, [])

/-- Concrete instances for the budget-conservation witness: three people, the
first already diagnosed, a day budget of 2. -/
def tnW : TestNum := TestNum.create 1 [some 2] 100 1 1

/-- The witness population: person 0 diagnosed, persons 1 and 2 healthy. -/
def simW : SimState :=
  { beta := 0,
    people :=
      [{ symptomatic := false, known_contact := false, diagnosed := true, contact_inds := [] },
       { symptomatic := false, known_contact := false, diagnosed := false, contact_inds := [] },
       { symptomatic := false, known_contact := false, diagnosed := false, contact_inds := [] }],
    results := [] }

/-- Model of `pl.cumsum`: the running cumulative sums of a per-day series. -/
def cumsum : List Nat → List Nat
  | [] => []
  | x :: xs => x :: (cumsum xs).map (fun y => x + y)

/-- Model of `sim.results.update(self.results)`: merge the intervention's series into
the simulation's results mapping; a new entry overrides a same-named one. -/
def updateResults (m new : List (String × List Nat)) :
    List (String × List Nat) :=
  new ++ m.filter (fun kv => (new.lookup kv.1).isNone)

/-- Method `TestNum.finalize(sim)`: derive `cum_diagnoses` as the cumulative sum of
`n_diagnoses` and merge both series into the simulation's results. -/
def TestNum.finalize (tn : TestNum) (sim : SimState) : TestNum × SimState :=
  let tn2 := { tn with cum_diagnoses := cumsum tn.n_diagnoses }
  (tn2,
   { sim with
      results := updateResults sim.results
        [("n_diagnoses", tn2.n_diagnoses), ("cum_diagnoses", tn2.cum_diagnoses)] })

/-- The `TestProp` intervention state: the four configuration probabilities,
the four result series, and `scheduled_tests`, the set of person indices
guaranteed to be tested on the next `apply`. -/
structure TestProp where
  symptomatic_prob : ℚ
  asymptomatic_prob : ℚ
  trace_prob : ℚ
  test_sensitivity : ℚ
  n_tested : List Nat
  n_diagnoses : List Nat
  cum_tested : List Nat
  cum_diagnoses : List Nat
  scheduled_tests : Finset Nat
deriving DecidableEq

/-- Constructor `TestProp.__init__`: store the configuration, create the four result
series of length `npts` initialized to zero, and start with an empty
scheduled-test set. -/
def TestProp.create (npts : Nat)
    (symptomatic_prob asymptomatic_prob trace_prob test_sensitivity : ℚ) :
    TestProp :=
  { symptomatic_prob := symptomatic_prob, asymptomatic_prob := asymptomatic_prob,
    trace_prob := trace_prob, test_sensitivity := test_sensitivity,
    n_tested := List.replicate npts 0, n_diagnoses := List.replicate npts 0,
    cum_tested := List.replicate npts 0, cum_diagnoses := List.replicate npts 0,
    scheduled_tests := ∅ }

/-- Modelled from the spec: the Bernoulli trials `cv.bt(p)` and the outcome of
`Person.test` are external randomness; following the spec's explicit random
source they are abstracted as per-call oracles.  `symptBt i` / `asymptBt i`
are the day's symptomatic/asymptomatic draws for person `i`, `traceBt i j` the
tracing draw for contact `j` of person `i`, and `testPos i` the outcome of
person `i`'s test that day. -/
structure Draws where
  symptBt : Nat → Bool
  asymptBt : Nat → Bool
  traceBt : Nat → Nat → Bool
  testPos : Nat → Bool

/-- Loop state of `TestProp.apply`: the population, the two per-day series,
the freshly built `new_scheduled_tests` set, and the log of indices on which
`person.test` has been invoked during this call. -/
structure PropState where
  people : List Person
  n_tested : List Nat
  n_diagnoses : List Nat
  newSched : Finset Nat
  tested : List Nat
deriving DecidableEq

/-- The body of `TestProp.apply`'s population loop at index `i`: the person is
tested when scheduled, or when the symptom-conditioned Bernoulli draw
succeeds.  On a test: count it, run `person.test`, and if the person is (still)
diagnosed, count the diagnosis and trace each contact into the fresh schedule
with probability `trace_prob`. -/
def TestProp.applyStep (tp : TestProp) (t : Nat) (d : Draws) (st : PropState)
    (i : Nat) : PropState :=
  let p := st.people.getD i default
  if decide (i ∈ tp.scheduled_tests) || (p.symptomatic && d.symptBt i) ||
      (!p.symptomatic && d.asymptBt i) then
    let n_tested2 := st.n_tested.set t (st.n_tested.getD t 0 + 1)
    let p2 := p.test (d.testPos i)
    let people2 := st.people.set i p2
    if p2.diagnosed then
      { people := people2, n_tested := n_tested2,
        n_diagnoses := st.n_diagnoses.set t (st.n_diagnoses.getD t 0 + 1),
        newSched := p2.contact_inds.foldl
          (fun s idx =>
            if p2.diagnosed && decide (tp.trace_prob ≠ 0) && d.traceBt i idx
            then insert idx s else s) st.newSched,
        tested := st.tested ++ [i] }
    else
      { people := people2, n_tested := n_tested2, n_diagnoses := st.n_diagnoses,
        newSched := st.newSched, tested := st.tested ++ [i] }
  else st

/-- Method `TestProp.apply(sim, t)`: scan the whole population in index order,
starting from a fresh empty scheduled set, then replace `scheduled_tests` with
the newly built set.  Returns the updated intervention and simulation together
with the list of indices on which `person.test` was invoked. -/
def TestProp.apply (tp : TestProp) (sim : SimState) (t : Nat) (d : Draws) :
    TestProp × SimState × List Nat :=
  let st := (List.range sim.people.length).foldl (tp.applyStep t d)
    { people := sim.people, n_tested := tp.n_tested,
      n_diagnoses := tp.n_diagnoses, newSched := ∅, tested := [] }
  ({ tp with
      n_tested := st.n_tested,
      n_diagnoses := st.n_diagnoses,
      scheduled_tests := st.newSched },
   { sim with people := st.people }, st.tested)

/-- Method `TestProp.finalize(sim)`: derive `cum_tested` and `cum_diagnoses` as
cumulative sums and merge all four series into the simulation's results. -/
def TestProp.finalize (tp : TestProp) (sim : SimState) : TestProp × SimState :=
  let tp2 := { tp with
    cum_tested := cumsum tp.n_tested,
    cum_diagnoses := cumsum tp.n_diagnoses }
  (tp2,
   { sim with
      results := updateResults sim.results
        [("n_tested", tp2.n_tested), ("n_diagnoses", tp2.n_diagnoses),
         ("cum_tested", tp2.cum_tested), ("cum_diagnoses", tp2.cum_diagnoses)] })

/-- The recount scenario: one symptomatic person whose only contact is person
0, i.e. itself. -/
def pRecount : Person :=
  { symptomatic := true, known_contact := false, diagnosed := false,
    contact_inds := [0] }

/-- A singleton population for the recount scenario. -/
def simRecount : SimState := { beta := 0, people := [pRecount], results := [] }

/-- A fresh `TestProp` over two days with the source's default probabilities. -/
def tpRecount : TestProp := TestProp.create 2 (9/10) (1/100) 1 1

/-- Oracles where every Bernoulli draw succeeds and every test is positive. -/
def drawsAllTrue : Draws :=
  { symptBt := fun _ => true, asymptBt := fun _ => true,
    traceBt := fun _ _ => true, testPos := fun _ => true }

/-- Oracles where every Bernoulli draw fails and every test is negative. -/
def drawsAllFalse : Draws :=
  { symptBt := fun _ => false, asymptBt := fun _ => false,
    traceBt := fun _ _ => false, testPos := fun _ => false }

/-- Day 0 of the recount scenario: person 0 is tested and diagnosed, and
traces itself into the scheduled set. -/
def recountRun1 : TestProp × SimState × List Nat :=
  tpRecount.apply simRecount 0 drawsAllTrue

/-- Day 1 of the recount scenario: person 0 is scheduled, hence tested again
although already diagnosed. -/
def recountRun2 : TestProp × SimState × List Nat :=
  recountRun1.1.apply recountRun1.2.1 1 drawsAllTrue

/-- A Python attribute value as it appears in a `to_json` attribute dump.
`natset` represents a Python `set` object — the one attribute kind here that
is not JSON-serializable. -/
inductive AttrVal where
  | str : String → AttrVal
  | num : ℚ → AttrVal
  | onum : Option ℚ → AttrVal
  | ints : List Int → AttrVal
  | nums : List ℚ → AttrVal
  | onums : List (Option Nat) → AttrVal
  | series : List (String × List Nat) → AttrVal
  | natset : Finset Nat → AttrVal
deriving DecidableEq

/-- Whether an attribute value is JSON-serializable: every modelled attribute
kind is, except a Python `set`. -/
def AttrVal.jsonSerializable : AttrVal → Bool
  | .natset _ => false
  | _ => true

/-- Model of `Intervention.to_json` as inherited by `ChangeBeta` (no override): a copy
of the instance attribute dict plus the `InterventionType` discriminator. -/
def ChangeBeta.to_json (cb : ChangeBeta) : List (String × AttrVal) :=
  [("results", .series []),
   ("days", .ints cb.days),
   ("changes", .nums cb.changes),
   ("orig_beta", .onum cb.orig_beta),
   ("InterventionType", .str "ChangeBeta")]

/-- Model of `Intervention.to_json` as inherited by `TestNum` (no override). -/
def TestNum.to_json (tn : TestNum) : List (String × AttrVal) :=
  [("results", .series [("n_diagnoses", tn.n_diagnoses),
      ("cum_diagnoses", tn.cum_diagnoses)]),
   ("daily_tests", .onums tn.daily_tests),
   ("sympt_test", .num tn.sympt_test),
   ("trace_test", .num tn.trace_test),
   ("sensitivity", .num tn.sensitivity),
   ("InterventionType", .str "TestNum")]

/-- Model of `Intervention.to_json` as inherited by `TestProp`: the class defines no
override, so the dump carries the (deep-copied) `scheduled_tests` set object
itself. -/
def TestProp.to_json (tp : TestProp) : List (String × AttrVal) :=
  [("results", .series [("n_tested", tp.n_tested),
      ("n_diagnoses", tp.n_diagnoses), ("cum_tested", tp.cum_tested),
      ("cum_diagnoses", tp.cum_diagnoses)]),
   ("symptomatic_prob", .num tp.symptomatic_prob),
   ("asymptomatic_prob", .num tp.asymptomatic_prob),
   ("trace_prob", .num tp.trace_prob),
   ("test_sensitivity", .num tp.test_sensitivity),
   ("scheduled_tests", .natset tp.scheduled_tests),
   ("InterventionType", .str "TestProp")]

/-- Concrete series for the cumulative-sum witness. -/
def tnC4 : TestNum :=
  { daily_tests := [], sympt_test := 100, trace_test := 1, sensitivity := 1,
    n_diagnoses := [3, 4], cum_diagnoses := [0, 0] }

/-- Concrete `TestProp` series for the cumulative-sum witness. -/
def tpC4 : TestProp :=
  { symptomatic_prob := 9/10, asymptomatic_prob := 1/100, trace_prob := 1,
    test_sensitivity := 1, n_tested := [1, 2], n_diagnoses := [0, 5],
    cum_tested := [0, 0], cum_diagnoses := [0, 0], scheduled_tests := ∅ }

/-- An empty simulation used by witnesses that only exercise results. -/
def simEmpty : SimState := { beta := 0, people := [], results := [] }

-- Folding multiplication starting from `b` equals `b` times the product.
lemma foldl_mul_getD (changes : List ℚ) (l : List Nat) (b : ℚ) :
    l.foldl (fun a i => a * changes.getD i 0) b =
      b * (l.map (fun i => changes.getD i 0)).prod := by
  induction l generalizing b with
  | nil => simp
  | cons hd tl ih =>
      rw [List.foldl_cons, ih, List.map_cons, List.prod_cons, mul_assoc]

-- `runSteps` never touches the schedule.
lemma runSteps_days_changes (cb : ChangeBeta) (beta : ℚ) (ts : List Int) :
    (cb.runSteps beta ts).1.days = cb.days ∧
      (cb.runSteps beta ts).1.changes = cb.changes := by
  induction ts generalizing cb beta with
  | nil => exact ⟨rfl, rfl⟩
  | cons t ts ih =>
      have happ : (cb.apply beta t).1.days = cb.days ∧
          (cb.apply beta t).1.changes = cb.changes := by
        unfold ChangeBeta.apply
        by_cases h : cb.orig_beta.isNone <;> by_cases h2 : findinds cb.days t ≠ [] <;>
          simp [h, h2]
      have := ih (cb.apply beta t).1 (cb.apply beta t).2
      simpa [ChangeBeta.runSteps, happ.1, happ.2] using this

-- Invariant: starting from a fresh instance at baseline `beta0`, after any run
-- either no call has happened (`orig_beta` still none, beta still `beta0`) or
-- `orig_beta` holds exactly `beta0`.
lemma runSteps_orig_beta (days : List Int) (changes : List ℚ) (beta0 : ℚ)
    (ts : List Int) :
    ((ChangeBeta.runSteps ⟨days, changes, none⟩ beta0 ts).1.orig_beta = none ∧
        (ChangeBeta.runSteps ⟨days, changes, none⟩ beta0 ts).2 = beta0) ∨
      (ChangeBeta.runSteps ⟨days, changes, none⟩ beta0 ts).1.orig_beta = some beta0 := by
  have key : ∀ (ts : List Int) (cb : ChangeBeta) (beta : ℚ),
      ((cb.orig_beta = none ∧ beta = beta0) ∨ cb.orig_beta = some beta0) →
      (((cb.runSteps beta ts).1.orig_beta = none ∧ (cb.runSteps beta ts).2 = beta0) ∨
        (cb.runSteps beta ts).1.orig_beta = some beta0) := by
    intro ts
    induction ts with
    | nil => intro cb beta h; simpa [ChangeBeta.runSteps] using h
    | cons t ts ih =>
        intro cb beta h
        have step : ((cb.apply beta t).1.orig_beta = none ∧ (cb.apply beta t).2 = beta0) ∨
            (cb.apply beta t).1.orig_beta = some beta0 := by
          rcases h with ⟨h1, h2⟩ | h1
          · right
            unfold ChangeBeta.apply
            by_cases hm : findinds cb.days t ≠ [] <;> simp [h1, h2, hm]
          · right
            unfold ChangeBeta.apply
            have : ¬ cb.orig_beta.isNone := by simp [h1]
            by_cases hm : findinds cb.days t ≠ [] <;> simp [this, h1, hm]
        have := ih (cb.apply beta t).1 (cb.apply beta t).2 step
        simpa [ChangeBeta.runSteps] using this
  exact key ts _ beta0 (Or.inl ⟨rfl, rfl⟩)

-- One `apply` call, assuming the baseline invariant: the resulting beta is the
-- baseline times the matched product when a schedule index matches, and is the
-- incoming beta otherwise; the captured baseline afterwards is `b0`.
lemma changeBeta_apply_spec (d : List Int) (c : List ℚ) (ob : Option ℚ)
    (beta b0 : ℚ) (t : Int)
    (h : (ob = none ∧ beta = b0) ∨ ob = some b0) :
    (findinds d t ≠ [] →
        (ChangeBeta.apply ⟨d, c, ob⟩ beta t).2 = b0 * matchedProduct d c t) ∧
      (findinds d t = [] → (ChangeBeta.apply ⟨d, c, ob⟩ beta t).2 = beta) ∧
      (ChangeBeta.apply ⟨d, c, ob⟩ beta t).1.orig_beta = some b0 := by
  rcases h with ⟨h1, h2⟩ | h1
  · subst h1; subst h2
    refine ⟨?_, ?_, ?_⟩
    · intro hm
      simp [ChangeBeta.apply, hm, matchedProduct]
      simpa using foldl_mul_getD c (findinds d t) beta
    · intro hm
      simp [ChangeBeta.apply, hm]
    · by_cases hm : findinds d t = [] <;> simp [ChangeBeta.apply, hm]
  · subst h1
    refine ⟨?_, ?_, ?_⟩
    · intro hm
      simp [ChangeBeta.apply, hm, matchedProduct]
      simpa using foldl_mul_getD c (findinds d t) b0
    · intro hm
      simp [ChangeBeta.apply, hm]
    · by_cases hm : findinds d t = [] <;> simp [ChangeBeta.apply, hm]

/-- C1.  ChangeBeta determinism: starting from a fresh intervention and
baseline `beta0`, after applying the timesteps `pre` in increasing order and
then `t`, the resulting beta is `beta0 * Π changes[i]` over the indices with
`days[i] == t` when at least one index matches, and is unchanged when none
matches; the recomputation always starts from the captured baseline `beta0`
(the value of the simulation's beta at the first `apply` call). -/
theorem changeBeta_determinism (days : List Int) (changes : List ℚ) (beta0 : ℚ)
    (pre : List Int) (t : Int)
    (hmono : List.Chain' (fun a b => a < b) (pre ++ [t])) :
    (findinds days t ≠ [] →
        (ChangeBeta.apply (ChangeBeta.runSteps ⟨days, changes, none⟩ beta0 pre).1
            (ChangeBeta.runSteps ⟨days, changes, none⟩ beta0 pre).2 t).2 =
          beta0 * matchedProduct days changes t) ∧
      (findinds days t = [] →
        (ChangeBeta.apply (ChangeBeta.runSteps ⟨days, changes, none⟩ beta0 pre).1
            (ChangeBeta.runSteps ⟨days, changes, none⟩ beta0 pre).2 t).2 =
          (ChangeBeta.runSteps ⟨days, changes, none⟩ beta0 pre).2) ∧
      (ChangeBeta.apply (ChangeBeta.runSteps ⟨days, changes, none⟩ beta0 pre).1
          (ChangeBeta.runSteps ⟨days, changes, none⟩ beta0 pre).2 t).1.orig_beta =
        some beta0 := by
  have hdc := runSteps_days_changes ⟨days, changes, none⟩ beta0 pre
  have hob := runSteps_orig_beta days changes beta0 pre
  generalize hgen : ChangeBeta.runSteps ⟨days, changes, none⟩ beta0 pre = s1 at hdc hob ⊢
  obtain ⟨⟨d1, c1, ob1⟩, beta1⟩ := s1
  dsimp only at hdc hob ⊢
  obtain ⟨h1, h2⟩ := hdc
  subst h1
  subst h2
  exact changeBeta_apply_spec d1 c1 ob1 beta1 beta0 t hob

/-- Witness for C1 at a concrete schedule: days `[1, 1]`, changes `[2, 3]`,
baseline `5`, run over `[0]` then day `1`: beta becomes `5 * (2 * 3) = 30`. -/
theorem changeBeta_determinism_witness :
    (ChangeBeta.apply (ChangeBeta.runSteps ⟨[1, 1], [2, 3], none⟩ 5 [0]).1
        (ChangeBeta.runSteps ⟨[1, 1], [2, 3], none⟩ 5 [0]).2 1).2 =
      5 * matchedProduct [1, 1] [2, 3] 1 :=
  (changeBeta_determinism [1, 1] [2, 3] 5 [0] 1
    (by norm_num [List.chain'_cons, List.chain'_singleton])).1 (by decide)

/-- C5.  ChangeBeta construction: after normalizing both arguments to arrays,
construction fails exactly when the lengths differ, with a message carrying
both lengths; on equal lengths it succeeds with `orig_beta` unset. -/
theorem changeBeta_create_validates (days : NumOrArr Int) (changes : NumOrArr ℚ) :
    ((∃ e, ChangeBeta.create days changes = .error e) ↔
        (promotetoarray days).length ≠ (promotetoarray changes).length) ∧
      ((promotetoarray days).length ≠ (promotetoarray changes).length →
        ChangeBeta.create days changes =
          .error (lenMismatchMsg (promotetoarray days).length (promotetoarray changes).length)) ∧
      ((promotetoarray days).length = (promotetoarray changes).length →
        ChangeBeta.create days changes =
          .ok { days := promotetoarray days, changes := promotetoarray changes,
                orig_beta := none }) := by
  refine ⟨⟨?_, ?_⟩, ?_, ?_⟩
  · rintro ⟨e, he⟩
    by_contra h
    simp [ChangeBeta.create, h] at he
  · intro h
    refine ⟨lenMismatchMsg (promotetoarray days).length (promotetoarray changes).length, ?_⟩
    simp [ChangeBeta.create, h]
  · intro h
    simp [ChangeBeta.create, h]
  · intro h
    simp [ChangeBeta.create, h]

/-- Witness for C5: `days=[1,2]`, scalar change `1/2` → lengths 2 ≠ 1, and the
construction fails with the message carrying 2 and 1. -/
theorem changeBeta_create_validates_witness :
    ChangeBeta.create (.arr [1, 2]) (.scalar (1/2)) = .error (lenMismatchMsg 2 1) :=
  (changeBeta_create_validates (.arr [1, 2]) (.scalar (1/2))).2.1 (by decide)

-- The normalized weight at index `i` is positive exactly when the raw weight
-- is, provided the divisor (the weight sum) is positive.
lemma normalizeProbs_getD_pos (ws : List ℚ) (hS : 0 < ws.sum) (i : Nat) :
    0 < (normalizeProbs ws).getD i 0 ↔ 0 < ws.getD i 0 := by
  by_cases hi : i < ws.length
  · have hlen : i < (normalizeProbs ws).length := by
      simpa [normalizeProbs] using hi
    rw [List.getD_eq_getElem _ _ hlen, List.getD_eq_getElem _ _ hi]
    have : (normalizeProbs ws)[i] = ws[i] / ws.sum := by
      simp [normalizeProbs]
    rw [this]
    constructor
    · intro h
      rcases div_pos_iff.mp h with ⟨h1, _⟩ | ⟨_, h2⟩
      · exact h1
      · exact absurd hS (not_lt.mpr h2.le)
    · intro h
      exact div_pos h hS
  · have h1 : (normalizeProbs ws).getD i 0 = 0 := by
      apply List.getD_eq_default
      simpa [normalizeProbs] using not_lt.mp hi
    have h2 : ws.getD i 0 = 0 := List.getD_eq_default _ _ (not_lt.mp hi)
    rw [h1, h2]

-- Counting positive entries by index over `range` equals counting them in the
-- list itself.
lemma count_range_getD (ws : List ℚ) :
    ((List.range ws.length).filter (fun i => decide (0 < ws.getD i 0))).length =
      numPositive ws := by
  induction ws with
  | nil => simp [numPositive]
  | cons a tl ih =>
      have hmap : (List.range (a :: tl).length).filter (fun i => decide (0 < (a :: tl).getD i 0)) =
          (0 :: (List.range tl.length).map Nat.succ).filter
            (fun i => decide (0 < (a :: tl).getD i 0)) := by
        rw [List.length_cons, List.range_succ_eq_map]
      rw [hmap]
      rw [List.filter_cons]
      have hshift : ((List.range tl.length).map Nat.succ).filter
          (fun i => decide (0 < (a :: tl).getD i 0)) =
          ((List.range tl.length).filter (fun i => decide (0 < tl.getD i 0))).map Nat.succ := by
        rw [List.filter_map]
        rfl
      rw [hshift]
      by_cases ha : 0 < a
      · simp [ha, numPositive, List.filter_cons]
        simpa [numPositive] using ih
      · simp [ha, numPositive, List.filter_cons]
        simpa [numPositive] using ih

/-- C3.  TestNum budget conservation: on a day with a positive finite budget
`n`, the set of tested indices never exceeds `n`; a diagnosed person (weight
forced to `0.0`) is never selected; and when the weight vector permits (at
least `min n popsize` positive weights) the number tested is exactly
`min n popsize`. -/
theorem testNum_budget (tn : TestNum) (sim : SimState) (t : Nat)
    (order : List Nat) (testPos : Nat → Bool) (n : Nat)
    (hlen : t < tn.daily_tests.length)
    (hday : tn.daily_tests.getD t none = some n)
    (hpos : 0 < n)
    (hperm : order.Perm (List.range sim.people.length))
    (hsum : 0 < (tn.testProbs sim).sum) :
    (tn.apply sim t order testPos).2.2.length ≤ n ∧
      (∀ i ∈ (tn.apply sim t order testPos).2.2,
        (sim.people.getD i default).diagnosed = false) ∧
      (min n sim.people.length ≤ numPositive (tn.testProbs sim) →
        (tn.apply sim t order testPos).2.2.length = min n sim.people.length) := by
  have hne : n ≠ 0 := Nat.pos_iff_ne_zero.mp hpos
  have hday2 : tn.daily_tests[t] = some n := by
    rw [List.getD_eq_getElem _ _ hlen] at hday
    exact hday
  have happ : (tn.apply sim t order testPos).2.2 =
      choose_people_weighted order (normalizeProbs (tn.testProbs sim)) n := by
    simp [TestNum.apply, hlen, hday2, hne]
  rw [happ]
  have hws : (tn.testProbs sim).length = sim.people.length := by
    simp [TestNum.testProbs]
  refine ⟨?_, ?_, ?_⟩
  · unfold choose_people_weighted
    rw [List.length_take]
    exact min_le_left _ _
  · intro i hi
    unfold choose_people_weighted at hi
    have hmem := List.mem_of_mem_take hi
    have hP := (List.mem_filter.mp hmem).2
    have hpos' : 0 < (tn.testProbs sim).getD i 0 :=
      (normalizeProbs_getD_pos _ hsum i).mp (of_decide_eq_true hP)
    have hi2 : i < (tn.testProbs sim).length := by
      by_contra hc
      rw [List.getD_eq_default _ _ (not_lt.mp hc)] at hpos'
      exact lt_irrefl 0 hpos'
    have hi3 : i < sim.people.length := hws ▸ hi2
    have hval : (tn.testProbs sim).getD i 0 = tn.testProb (sim.people.getD i default) := by
      rw [List.getD_eq_getElem _ _ hi2, List.getD_eq_getElem _ _ hi3]
      simp [TestNum.testProbs]
    rw [hval] at hpos'
    by_contra hd
    have hd' : (sim.people.getD i default).diagnosed = true := by
      cases h : (sim.people.getD i default).diagnosed
      · exact absurd h hd
      · rfl
    rw [TestNum.testProb, hd'] at hpos'
    simp at hpos'
  · intro hpermit
    unfold choose_people_weighted
    rw [List.length_take]
    have hcongr : order.filter (fun i => decide (0 < (normalizeProbs (tn.testProbs sim)).getD i 0)) =
        order.filter (fun i => decide (0 < (tn.testProbs sim).getD i 0)) := by
      apply List.filter_congr
      intro i _
      exact decide_eq_decide.mpr (normalizeProbs_getD_pos _ hsum i)
    rw [hcongr]
    have hpl : (order.filter (fun i => decide (0 < (tn.testProbs sim).getD i 0))).length =
        ((List.range sim.people.length).filter
          (fun i => decide (0 < (tn.testProbs sim).getD i 0))).length :=
      (hperm.filter _).length_eq
    rw [hpl, ← hws, count_range_getD]
    have hle : numPositive (tn.testProbs sim) ≤ (tn.testProbs sim).length :=
      List.length_filter_le _ _
    rw [hws] at hle
    omega

/-- Witness for C3: three people, person 0 diagnosed, budget 2: exactly the
two healthy people are testable and exactly `min 2 3 = 2` get tested. -/
theorem testNum_budget_witness :
    (tnW.apply simW 0 [0, 1, 2] (fun _ => true)).2.2.length = min 2 3 :=
  (testNum_budget tnW simW 0 [0, 1, 2] (fun _ => true) 2 (by decide) (by rfl)
    (by decide) (by decide)
    (by rw [show tnW.testProbs simW = [0, 1, 1] from rfl]; norm_num)).2.2
    (by rw [show numPositive (tnW.testProbs simW) = 2 from rfl]; exact min_le_left 2 3)

-- Each testing weight is nonnegative when both multipliers are positive.
lemma testProb_nonneg (tn : TestNum) (p : Person)
    (hs : 0 < tn.sympt_test) (htr : 0 < tn.trace_test) : 0 ≤ tn.testProb p := by
  unfold TestNum.testProb
  by_cases h1 : p.symptomatic <;> by_cases h2 : p.known_contact <;>
    by_cases h3 : p.diagnosed <;> simp [h1, h2, h3] <;>
      nlinarith [mul_pos hs htr, hs, htr]

-- Mapping division by a constant through a list divides the sum.
lemma sum_map_div (l : List ℚ) (S : ℚ) :
    (l.map (fun w => w / S)).sum = l.sum / S := by
  induction l with
  | nil => simp
  | cons a tl ih => simp [ih, add_div]

/-- C7.  TestNum weight-normalization safety: with positive multipliers, when
some person carries a positive weight the normalized vector sums to 1; when
every person is diagnosed all weights are zero, so the unguarded division
`test_probs /= test_probs.sum()` runs with divisor 0 (the degenerate case has
no defined outcome in the source). -/
theorem testNum_normalization (tn : TestNum) (sim : SimState)
    (hs : 0 < tn.sympt_test) (htr : 0 < tn.trace_test) :
    ((∃ w ∈ tn.testProbs sim, 0 < w) →
        (normalizeProbs (tn.testProbs sim)).sum = 1) ∧
      ((∀ p ∈ sim.people, p.diagnosed = true) → (tn.testProbs sim).sum = 0) := by
  constructor
  · rintro ⟨w, hw, hwpos⟩
    have hnonneg : ∀ x ∈ tn.testProbs sim, 0 ≤ x := by
      intro x hx
      rcases List.mem_map.mp hx with ⟨p, _, rfl⟩
      exact testProb_nonneg tn p hs htr
    obtain ⟨l1, l2, hsplit⟩ := List.append_of_mem hw
    have hsum : 0 < (tn.testProbs sim).sum := by
      rw [hsplit, List.sum_append, List.sum_cons]
      have h1 : 0 ≤ l1.sum := List.sum_nonneg (fun x hx => hnonneg x (by rw [hsplit]; simp [hx]))
      have h2 : 0 ≤ l2.sum := List.sum_nonneg (fun x hx => hnonneg x (by rw [hsplit]; simp [hx]))
      linarith
    unfold normalizeProbs
    rw [sum_map_div]
    exact div_self (ne_of_gt hsum)
  · intro hall
    apply List.sum_eq_zero
    intro x hx
    rcases List.mem_map.mp hx with ⟨p, hp, rfl⟩
    simp [TestNum.testProb, hall p hp]

/-- Witness for C7: the witness population has healthy people, so the
normalized weights sum to 1. -/
theorem testNum_normalization_witness :
    (normalizeProbs (tnW.testProbs simW)).sum = 1 :=
  (testNum_normalization tnW simW (by show (0:ℚ) < 100; norm_num)
    (by show (0:ℚ) < 1; norm_num)).1
    (by rw [show tnW.testProbs simW = [0, 1, 1] from rfl]
        exact ⟨1, by norm_num, by norm_num⟩)

-- `List.getD` after a `set` at the same in-range index returns the new value.
lemma getD_set_self (l : List Nat) (i : Nat) (a : Nat) (h : i < l.length) :
    (l.set i a).getD i 0 = a := by
  simp [List.getD_eq_getElem?_getD, List.getElem?_set_self, h]

-- One loop step of `TestProp.apply` either leaves the state untouched or
-- appends the index to the invocation log and bumps the day's tested count.
lemma applyStep_cases (tp : TestProp) (t : Nat) (d : Draws) (st : PropState)
    (i : Nat) :
    tp.applyStep t d st i = st ∨
      ((tp.applyStep t d st i).tested = st.tested ++ [i] ∧
        (tp.applyStep t d st i).n_tested =
          st.n_tested.set t (st.n_tested.getD t 0 + 1)) := by
  simp only [TestProp.applyStep]
  split
  · split
    · right; exact ⟨rfl, rfl⟩
    · right; exact ⟨rfl, rfl⟩
  · left; rfl

-- A scheduled index is always tested by its loop step.
lemma applyStep_scheduled (tp : TestProp) (t : Nat) (d : Draws) (st : PropState)
    (i : Nat) (h : i ∈ tp.scheduled_tests) :
    (tp.applyStep t d st i).tested = st.tested ++ [i] := by
  have hc : decide (i ∈ tp.scheduled_tests) = true := decide_eq_true h
  simp only [TestProp.applyStep, hc, Bool.true_or, if_true]
  split <;> rfl

-- The invocation log only grows along the loop.
lemma foldl_applyStep_tested_mono (tp : TestProp) (t : Nat) (d : Draws)
    (l : List Nat) (st : PropState) (j : Nat) (h : j ∈ st.tested) :
    j ∈ (l.foldl (tp.applyStep t d) st).tested := by
  induction l generalizing st with
  | nil => simpa using h
  | cons i l ih =>
      rw [List.foldl_cons]
      apply ih
      rcases applyStep_cases tp t d st i with hc | ⟨hc1, _⟩
      · rw [hc]; exact h
      · rw [hc1]; exact List.mem_append_left _ h

-- Along the loop, the day's tested count grows in lockstep with the length of
-- the invocation log, and the series length never changes.
lemma foldl_applyStep_count (tp : TestProp) (t : Nat) (d : Draws)
    (l : List Nat) (st : PropState) (ht : t < st.n_tested.length) :
    (l.foldl (tp.applyStep t d) st).n_tested.getD t 0 + st.tested.length =
        st.n_tested.getD t 0 + (l.foldl (tp.applyStep t d) st).tested.length ∧
      (l.foldl (tp.applyStep t d) st).n_tested.length = st.n_tested.length := by
  induction l generalizing st with
  | nil => exact ⟨rfl, rfl⟩
  | cons i l ih =>
      rw [List.foldl_cons]
      rcases applyStep_cases tp t d st i with hc | ⟨hc1, hc2⟩
      · rw [hc]; exact ih st ht
      · have hlen2 : (tp.applyStep t d st i).n_tested.length = st.n_tested.length := by
          rw [hc2, List.length_set]
        have hgd : (tp.applyStep t d st i).n_tested.getD t 0 =
            st.n_tested.getD t 0 + 1 := by
          rw [hc2]; exact getD_set_self _ _ _ ht
        have htl : (tp.applyStep t d st i).tested.length = st.tested.length + 1 := by
          rw [hc1, List.length_append, List.length_cons, List.length_nil]
        obtain ⟨h1, h2⟩ := ih (tp.applyStep t d st i) (by rw [hlen2]; exact ht)
        constructor
        · omega
        · rw [h2, hlen2]

/-- C2.  TestProp forced-retest guarantee: an index `i` placed into
`scheduled_tests` during `apply` at day `t` is tested by the next call at day
`t + 1` — it enters the invocation log (on which `person.test` is called) and
the day's `n_tested` count advances by exactly the number of logged tests —
for every simulation state and every outcome of the day's Bernoulli draws. -/
theorem testProp_forced_retest (tp : TestProp) (sim : SimState) (t : Nat)
    (d1 : Draws) (i : Nat) (sim2 : SimState) (d2 : Draws)
    (hsched : i ∈ (tp.apply sim t d1).1.scheduled_tests)
    (hi : i < sim2.people.length)
    (ht : t + 1 < (tp.apply sim t d1).1.n_tested.length) :
    i ∈ ((tp.apply sim t d1).1.apply sim2 (t + 1) d2).2.2 ∧
      ((tp.apply sim t d1).1.apply sim2 (t + 1) d2).1.n_tested.getD (t + 1) 0 =
        (tp.apply sim t d1).1.n_tested.getD (t + 1) 0 +
          ((tp.apply sim t d1).1.apply sim2 (t + 1) d2).2.2.length := by
  constructor
  · show i ∈ ((List.range sim2.people.length).foldl
        ((tp.apply sim t d1).1.applyStep (t + 1) d2)
        { people := sim2.people, n_tested := (tp.apply sim t d1).1.n_tested,
          n_diagnoses := (tp.apply sim t d1).1.n_diagnoses, newSched := ∅,
          tested := [] }).tested
    obtain ⟨l1, l2, hsplit⟩ := List.append_of_mem (List.mem_range.mpr hi)
    rw [hsplit, List.foldl_append, List.foldl_cons]
    apply foldl_applyStep_tested_mono
    rw [applyStep_scheduled _ _ _ _ _ hsched]
    exact List.mem_append_right _ (List.mem_singleton.mpr rfl)
  · have h := foldl_applyStep_count (tp.apply sim t d1).1 (t + 1) d2
      (List.range sim2.people.length)
      { people := sim2.people, n_tested := (tp.apply sim t d1).1.n_tested,
        n_diagnoses := (tp.apply sim t d1).1.n_diagnoses, newSched := ∅,
        tested := [] } ht
    simpa using h.1

/-- Witness for C2 in the recount scenario: person 0 is scheduled after day 0
and is tested on day 1, with `n_tested[1]` advancing accordingly. -/
theorem testProp_forced_retest_witness :
    0 ∈ recountRun2.2.2 ∧
      recountRun2.1.n_tested.getD 1 0 =
        recountRun1.1.n_tested.getD 1 0 + recountRun2.2.2.length :=
  testProp_forced_retest tpRecount simRecount 0 drawsAllTrue 0 recountRun1.2.1
    drawsAllTrue (by decide) (by decide) (by decide)

-- With all tracing draws failing, the contact fold adds nothing.
lemma trace_fold_no_draws (d : Draws) (i : Nat) (b c : Bool)
    (hT : ∀ k j, d.traceBt k j = false) (cs : List Nat) (s : Finset Nat) :
    cs.foldl (fun s idx => if b && c && d.traceBt i idx then insert idx s
      else s) s = s := by
  induction cs generalizing s with
  | nil => rfl
  | cons a cs ih =>
      have h1 : (if b && c && d.traceBt i a then insert a s else s) = s := by
        rw [hT i a]; simp
      rw [List.foldl_cons, h1]
      exact ih s

-- A loop step never touches the fresh schedule when all tracing draws fail.
lemma applyStep_newSched_no_draws (tp : TestProp) (t : Nat) (d : Draws)
    (st : PropState) (i : Nat) (hT : ∀ k j, d.traceBt k j = false) :
    (tp.applyStep t d st i).newSched = st.newSched := by
  simp only [TestProp.applyStep]
  split
  · split
    · exact trace_fold_no_draws d i _ _ hT _ _
    · rfl
  · rfl

-- Hence the whole loop leaves the fresh schedule unchanged.
lemma foldl_newSched_no_draws (tp : TestProp) (t : Nat) (d : Draws)
    (l : List Nat) (st : PropState) (hT : ∀ k j, d.traceBt k j = false) :
    (l.foldl (tp.applyStep t d) st).newSched = st.newSched := by
  induction l generalizing st with
  | nil => rfl
  | cons i l ih =>
      rw [List.foldl_cons, ih ((tp.applyStep t d) st i)]
      exact applyStep_newSched_no_draws tp t d st i hT

-- With an empty schedule and failing Bernoulli draws, a loop step is a no-op.
lemma applyStep_skip (tp : TestProp) (t : Nat) (d : Draws) (st : PropState)
    (i : Nat) (hs : tp.scheduled_tests = ∅)
    (h1 : d.symptBt i = false) (h2 : d.asymptBt i = false) :
    tp.applyStep t d st i = st := by
  simp [TestProp.applyStep, hs, h1, h2]

-- Hence the whole loop is a no-op.
lemma foldl_skip (tp : TestProp) (t : Nat) (d : Draws) (l : List Nat)
    (st : PropState) (hs : tp.scheduled_tests = ∅)
    (h1 : ∀ i, d.symptBt i = false) (h2 : ∀ i, d.asymptBt i = false) :
    l.foldl (tp.applyStep t d) st = st := by
  induction l generalizing st with
  | nil => rfl
  | cons i l ih =>
      rw [List.foldl_cons, applyStep_skip tp t d st i hs (h1 i) (h2 i)]
      exact ih st

/-- C6.  TestProp one-step lookahead: each `apply` call replaces
`scheduled_tests` by the freshly built set, never merging the old one in.
When nothing is re-added during the call (all tracing draws fail), the
resulting set is empty regardless of what was scheduled before, and a
subsequent day on which every Bernoulli draw also fails tests nobody — so an
index scheduled earlier but not re-added is not tested two steps later. -/
theorem testProp_one_step_lookahead (tp : TestProp) (sim sim2 : SimState)
    (t : Nat) (d1 d2 : Draws)
    (hT : ∀ k j, d1.traceBt k j = false)
    (hs : ∀ i, d2.symptBt i = false)
    (ha : ∀ i, d2.asymptBt i = false) :
    (tp.apply sim t d1).1.scheduled_tests = ∅ ∧
      ((tp.apply sim t d1).1.apply sim2 (t + 1) d2).2.2 = [] := by
  have hsched : (tp.apply sim t d1).1.scheduled_tests = ∅ := by
    show ((List.range sim.people.length).foldl (tp.applyStep t d1)
        { people := sim.people, n_tested := tp.n_tested,
          n_diagnoses := tp.n_diagnoses, newSched := ∅, tested := [] }).newSched = ∅
    rw [foldl_newSched_no_draws tp t d1 _ _ hT]
  refine ⟨hsched, ?_⟩
  show ((List.range sim2.people.length).foldl
      ((tp.apply sim t d1).1.applyStep (t + 1) d2)
      { people := sim2.people, n_tested := (tp.apply sim t d1).1.n_tested,
        n_diagnoses := (tp.apply sim t d1).1.n_diagnoses, newSched := ∅,
        tested := [] }).tested = []
  rw [foldl_skip _ _ _ _ _ hsched hs ha]

/-- Witness for C6 with the recount scenario's population and all-false
oracles. -/
theorem testProp_one_step_lookahead_witness :
    (tpRecount.apply simRecount 0 drawsAllFalse).1.scheduled_tests = ∅ ∧
      ((tpRecount.apply simRecount 0 drawsAllFalse).1.apply simRecount 1
        drawsAllFalse).2.2 = [] :=
  testProp_one_step_lookahead tpRecount simRecount simRecount 0 drawsAllFalse
    drawsAllFalse (fun _ _ => rfl) (fun _ => rfl) (fun _ => rfl)

/-- C10.  TestProp can re-count diagnoses: in the recount scenario, person 0
is diagnosed on day 0 and traces itself into the schedule; on day 1 it is
tested again although already diagnosed, `n_diagnoses` is incremented again
and its contacts are traced again, so the series sums to 2 while only one
distinct person is diagnosed. -/
theorem testProp_recount_diagnoses :
    recountRun1.1.n_diagnoses = [1, 0] ∧
      0 ∈ recountRun1.1.scheduled_tests ∧
      (recountRun1.2.1.people.getD 0 default).diagnosed = true ∧
      0 ∈ recountRun2.2.2 ∧
      0 ∈ recountRun2.1.scheduled_tests ∧
      recountRun2.1.n_diagnoses = [1, 1] ∧
      recountRun2.1.n_diagnoses.sum = 2 ∧
      (recountRun2.2.1.people.filter (fun p => p.diagnosed)).length = 1 := by
  decide

-- The cumulative series has the same length as its source.
lemma cumsum_length (l : List Nat) : (cumsum l).length = l.length := by
  induction l with
  | nil => rfl
  | cons x xs ih => simp [cumsum, ih]

-- Each entry of the cumulative series is the sum of the source prefix.
lemma cumsum_getD (l : List Nat) (t : Nat) (ht : t < l.length) :
    (cumsum l).getD t 0 = (l.take (t + 1)).sum := by
  induction l generalizing t with
  | nil => simp at ht
  | cons x xs ih =>
      cases t with
      | zero => simp [cumsum]
      | succ t =>
          have ht' : t < xs.length := by simpa using ht
          have hlen : t < (cumsum xs).length := by rw [cumsum_length]; exact ht'
          have hstep : (cumsum (x :: xs)).getD (t + 1) 0 =
              x + (cumsum xs).getD t 0 := by
            show ((cumsum xs).map (fun y => x + y)).getD t 0 = _
            rw [List.getD_eq_getElem _ _ (by simpa using hlen), List.getElem_map,
              List.getD_eq_getElem _ _ hlen]
          rw [hstep, ih t ht', List.take_succ_cons, List.sum_cons]

/-- C4.  Cumulative series correctness: after `finalize`, every in-range entry
of a cumulative series equals the sum of its source series up to and including
that day, and all series of both testing policies are merged into the
simulation's results mapping. -/
theorem cumulative_series_correct (tn : TestNum) (tp : TestProp)
    (simA simB : SimState) (t u : Nat)
    (ht : t < tn.n_diagnoses.length)
    (hu1 : u < tp.n_tested.length) (hu2 : u < tp.n_diagnoses.length) :
    ((tn.finalize simA).1.cum_diagnoses.getD t 0 =
        (tn.n_diagnoses.take (t + 1)).sum) ∧
      ((tn.finalize simA).2.results.lookup "n_diagnoses" = some tn.n_diagnoses) ∧
      ((tn.finalize simA).2.results.lookup "cum_diagnoses" =
        some (cumsum tn.n_diagnoses)) ∧
      ((tp.finalize simB).1.cum_tested.getD u 0 = (tp.n_tested.take (u + 1)).sum) ∧
      ((tp.finalize simB).1.cum_diagnoses.getD u 0 =
        (tp.n_diagnoses.take (u + 1)).sum) ∧
      ((tp.finalize simB).2.results.lookup "n_tested" = some tp.n_tested) ∧
      ((tp.finalize simB).2.results.lookup "n_diagnoses" = some tp.n_diagnoses) ∧
      ((tp.finalize simB).2.results.lookup "cum_tested" =
        some (cumsum tp.n_tested)) ∧
      ((tp.finalize simB).2.results.lookup "cum_diagnoses" =
        some (cumsum tp.n_diagnoses)) := by
  exact ⟨cumsum_getD _ t ht, rfl, rfl, cumsum_getD _ u hu1, cumsum_getD _ u hu2,
    rfl, rfl, rfl, rfl⟩

/-- Witness for C4: concrete series `[3, 4]` give `cum_diagnoses[1] = 7`. -/
theorem cumulative_series_correct_witness :
    (tnC4.finalize simEmpty).1.cum_diagnoses.getD 1 0 =
      (tnC4.n_diagnoses.take 2).sum :=
  (cumulative_series_correct tnC4 tpC4 simEmpty simEmpty 1 1 (by decide)
    (by decide) (by decide)).1

/-- C8.  Serialization round-trip: each policy's `to_json` output contains an
entry for every constructor-supplied configuration field and the
`InterventionType` discriminator, whose three values are pairwise distinct. -/
theorem to_json_round_trip (cb : ChangeBeta) (tn : TestNum) (tp : TestProp) :
    cb.to_json.lookup "days" = some (.ints cb.days) ∧
      cb.to_json.lookup "changes" = some (.nums cb.changes) ∧
      cb.to_json.lookup "InterventionType" = some (.str "ChangeBeta") ∧
      tn.to_json.lookup "daily_tests" = some (.onums tn.daily_tests) ∧
      tn.to_json.lookup "sympt_test" = some (.num tn.sympt_test) ∧
      tn.to_json.lookup "trace_test" = some (.num tn.trace_test) ∧
      tn.to_json.lookup "sensitivity" = some (.num tn.sensitivity) ∧
      tn.to_json.lookup "InterventionType" = some (.str "TestNum") ∧
      tp.to_json.lookup "symptomatic_prob" = some (.num tp.symptomatic_prob) ∧
      tp.to_json.lookup "asymptomatic_prob" = some (.num tp.asymptomatic_prob) ∧
      tp.to_json.lookup "trace_prob" = some (.num tp.trace_prob) ∧
      tp.to_json.lookup "test_sensitivity" = some (.num tp.test_sensitivity) ∧
      tp.to_json.lookup "InterventionType" = some (.str "TestProp") ∧
      AttrVal.str "ChangeBeta" ≠ AttrVal.str "TestNum" ∧
      AttrVal.str "ChangeBeta" ≠ AttrVal.str "TestProp" ∧
      AttrVal.str "TestNum" ≠ AttrVal.str "TestProp" := by
  refine ⟨rfl, rfl, rfl, rfl, rfl, rfl, rfl, rfl, rfl, rfl, rfl, rfl, rfl,
    by decide, by decide, by decide⟩

/-- C9 (evidence of the violation).  `TestProp` defines no `to_json` override,
so the inherited attribute dump carries the `scheduled_tests` set object
itself — a value that is not JSON-serializable. -/
theorem testProp_to_json_unserializable (tp : TestProp) :
    tp.to_json.lookup "scheduled_tests" = some (.natset tp.scheduled_tests) ∧
      AttrVal.jsonSerializable (.natset tp.scheduled_tests) = false :=
  ⟨rfl, rfl⟩
